import Mathlib

/-!
Verification of the request-mediation and permission-grant engine of the
Ribbit Signer browser extension (nos2x-frog). Each definition below is a
shallow embedding of a function from the sources:
  - src/types.ts        (event-kind risk registry, data model)
  - src/options.tsx     (grant store: storage-backed site permissions)
  - src/background.ts   (anti-spam guard, dedup, request mediation)
  - src/requestLog.ts   (audit log)
JavaScript numbers holding unix-seconds and millisecond timestamps are
modelled as Nat. JavaScript object maps keyed by strings are modelled as
association lists. Optional / possibly-undefined fields are Option.
-/

--#region Risk classifier (src/types.ts, getKindRisk / KIND_RISK)

/-- Risk tiers for event kinds (type KindRiskTier in src/types.ts). -/
inductive KindRiskTier
  | low
  | medium
  | high
  | critical
deriving DecidableEq

/-- The static KIND_RISK table (src/types.ts). A JavaScript
Record with number keys; absent keys give undefined, modelled as none. -/
def KIND_RISK (kind : Nat) : Option KindRiskTier :=
  match kind with
  | 0 => some .medium
  | 1 => some .low
  | 2 => some .low
  | 5 => some .high
  | 6 => some .low
  | 7 => some .low
  | 16 => some .low
  | 3 => some .medium
  | 40 => some .medium
  | 41 => some .medium
  | 42 => some .low
  | 10002 => some .medium
  | 4 => some .high
  | 1984 => some .high
  | 9734 => some .critical
  | 9735 => some .critical
  | 13194 => some .critical
  | 23194 => some .critical
  | 23195 => some .critical
  | 22242 => some .low
  | 27235 => some .medium
  | 24133 => some .critical
  | _ => none

/-- getKindRisk (src/types.ts): table lookup, then numeric-range
fallbacks, then medium. The JavaScript truthiness test on the table value is
always true when the key is present (all tier strings are nonempty). -/
def getKindRisk (kind : Nat) : KindRiskTier :=
  match KIND_RISK kind with
  | some t => t
  | none =>
    if 20000 ≤ kind ∧ kind < 30000 then .low
    else if 10000 ≤ kind ∧ kind < 20000 then .medium
    else if 30000 ≤ kind ∧ kind < 40000 then .medium
    else .medium

--#endregion

--#region Permission data model (src/types.ts)

/-- The closed set of capabilities (type Capability in src/types.ts). -/
inductive Capability
  | getPublicKey
  | getRelays
  | signEvent
  | nip04encrypt
  | nip04decrypt
  | nip44encrypt
  | nip44decrypt
deriving DecidableEq

/-- Duration options (enum PermissionDuration in src/types.ts). -/
inductive PermissionDuration
  | once
  | session
  | minutes5
  | minutes30
  | hours1
  | hours8
  | hours24
  | forever
deriving DecidableEq

/-- A single capability grant (type CapabilityGrant in src/types.ts).
Timestamps are unix seconds; allowedKinds is an optional field. -/
structure CapabilityGrant where
  capability : Capability
  granted_at : Nat
  expires_at : Option Nat
  duration : PermissionDuration
  allowedKinds : Option (List Nat)
deriving DecidableEq

/-- Per-host permission record (type SitePermission in src/types.ts). -/
structure SitePermission where
  host : String
  first_seen : Nat
  last_active : Nat
  request_count : Nat
  denied_count : Nat
  grants : List CapabilityGrant
deriving DecidableEq

/-- Map of host to SitePermission (type SitePermissions in src/types.ts),
modelled as an association list. -/
def SitePermissions := List (String × SitePermission)

/-- Replace the value under a key, or append the binding when the key is
absent: the object assignment perms[host] = site. -/
def updateAssoc {α : Type} (m : List (String × α)) (h : String) (v : α) :
    List (String × α) :=
  match m with
  | [] => [(h, v)]
  | (k, w) :: rest => if k = h then (h, v) :: rest else (k, w) :: updateAssoc rest h v

--#endregion

--#region Grant store (src/options.tsx, storage section)

/-- incrementDenied (src/options.tsx): bump denied_count when the host has a
record, otherwise do nothing. -/
def incrementDenied (perms : List (String × SitePermission)) (host : String) :
    List (String × SitePermission) :=
  perms.map (fun p =>
    if p.1 = host then (p.1, { p.2 with denied_count := p.2.denied_count + 1 }) else p)

/-- The expiry computed by the switch on duration inside addGrant
(src/options.tsx). The source comment on the once case reads: will be
consumed immediately. -/
def computeExpiry (duration : PermissionDuration) (now : Nat) : Option Nat :=
  match duration with
  | .once => some now
  | .session => none
  | .minutes5 => some (now + 5 * 60)
  | .minutes30 => some (now + 30 * 60)
  | .hours1 => some (now + 60 * 60)
  | .hours8 => some (now + 8 * 60 * 60)
  | .hours24 => some (now + 24 * 60 * 60)
  | .forever => none

/-- addGrant (src/options.tsx): create the site record when absent, compute
the expiry, remove any existing grant for the same capability, append the
new grant. -/
def addGrant (perms : List (String × SitePermission)) (host : String)
    (capability : Capability) (duration : PermissionDuration)
    (allowedKinds : Option (List Nat)) (now : Nat) :
    List (String × SitePermission) :=
  let site : SitePermission :=
    match perms.lookup host with
    | some s => s
    | none =>
      { host := host, first_seen := now, last_active := now,
        request_count := 0, denied_count := 0, grants := [] }
  let grant : CapabilityGrant :=
    { capability := capability, granted_at := now,
      expires_at := computeExpiry duration now,
      duration := duration, allowedKinds := allowedKinds }
  updateAssoc perms host
    { site with grants :=
        site.grants.filter (fun g => g.capability ≠ capability) ++ [grant] }

/-- The loop body of hasActiveGrant (src/options.tsx) as a predicate: a
grant is returned unless one of the three continue conditions fires.
The expiry test continues when expires_at is non-null and expires_at <= now.
The allowlist test fires only for signEvent with a present, nonempty
allowedKinds and a defined eventKind not contained in it. -/
def grantAuthorizes (g : CapabilityGrant) (capability : Capability)
    (eventKind : Option Nat) (now : Nat) : Bool :=
  g.capability = capability
  && !(match g.expires_at with
       | some e => decide (e ≤ now)
       | none => false)
  && !(capability = Capability.signEvent
       && (match g.allowedKinds with
           | some ks => decide (0 < ks.length)
           | none => false)
       && (match eventKind, g.allowedKinds with
           | some k, some ks => !(ks.contains k)
           | _, _ => false))

/-- hasActiveGrant (src/options.tsx): missing host gives null; otherwise the
first grant of the site that survives the three continue conditions. -/
def hasActiveGrant (perms : List (String × SitePermission)) (host : String)
    (capability : Capability) (eventKind : Option Nat) (now : Nat) :
    Option CapabilityGrant :=
  match perms.lookup host with
  | none => none
  | some site => site.grants.find? (fun g => grantAuthorizes g capability eventKind now)

/-- consumeOnceGrant (src/options.tsx): drop grants matching the capability
whose duration is once. -/
def consumeOnceGrant (perms : List (String × SitePermission)) (host : String)
    (capability : Capability) : List (String × SitePermission) :=
  match perms.lookup host with
  | none => perms
  | some site =>
    updateAssoc perms host
      { site with grants :=
          site.grants.filter (fun g =>
            !(g.capability = capability && g.duration = PermissionDuration.once)) }

/-- revokeGrant (src/options.tsx): drop all grants for one capability. -/
def revokeGrant (perms : List (String × SitePermission)) (host : String)
    (capability : Capability) : List (String × SitePermission) :=
  match perms.lookup host with
  | none => perms
  | some site =>
    updateAssoc perms host
      { site with grants := site.grants.filter (fun g => g.capability ≠ capability) }

/-- revokeAllGrants (src/options.tsx): empty the grants array of one host. -/
def revokeAllGrants (perms : List (String × SitePermission)) (host : String) :
    List (String × SitePermission) :=
  match perms.lookup host with
  | none => perms
  | some site => updateAssoc perms host { site with grants := [] }

/-- purgeExpiredGrants (src/options.tsx): across all hosts keep grants with
null expiry or expires_at > now. -/
def purgeExpiredGrants (perms : List (String × SitePermission)) (now : Nat) :
    List (String × SitePermission) :=
  perms.map (fun p =>
    (p.1, { p.2 with grants :=
      p.2.grants.filter (fun g =>
        match g.expires_at with
        | none => true
        | some e => decide (now < e)) }))

/-- clearSessionGrants (src/options.tsx): across all hosts keep grants whose
duration is not session. -/
def clearSessionGrants (perms : List (String × SitePermission)) :
    List (String × SitePermission) :=
  perms.map (fun p =>
    (p.1, { p.2 with grants :=
      p.2.grants.filter (fun g => g.duration ≠ PermissionDuration.session) }))

--#endregion

--#region Request parameters and the signEvent execution branch (src/background.ts)

/-- An inbound unsigned event as carried by params.event. The pubkey field
is optional on events arriving from the page; a missing field is none. -/
structure EventIn where
  kind : Nat
  created_at : Nat
  pubkey : Option String
  content : String
  tags : List (List String)
deriving DecidableEq

/-- params of a content-script request (type PromptParams in src/types.ts);
all fields may be absent at runtime. -/
structure PromptParams where
  peer : Option String
  plaintext : Option String
  ciphertext : Option String
  event : Option EventIn
deriving DecidableEq

/-- JavaScript truthiness of a possibly-undefined string: undefined and the
empty string are falsy. -/
def jsTruthyStr : Option String → Bool
  | none => false
  | some s => s ≠ ""

/-- Control-flow outcome of the signEvent case of processRequest
(src/background.ts lines 507 to 517). finalizedEvent means execution
reached the finalizeEvent call. -/
inductive SignOutcome
  | emptyEventError
  | pubkeyMismatchError
  | finalizedEvent
deriving DecidableEq

/-- The signEvent case of processRequest (src/background.ts): empty event
check, then the guard
  if (params.event?.pubkey && params.event.pubkey !== activePubKey) throw,
then finalizeEvent. The guard fires only when the pubkey field is truthy
(present and nonempty) and differs from the derived active public key. -/
def signEventBranch (event : Option EventIn) (activePubKey : String) : SignOutcome :=
  match event with
  | none => .emptyEventError
  | some e =>
    if (match e.pubkey with
        | some p => p ≠ "" && p ≠ activePubKey
        | none => false) then .pubkeyMismatchError
    else .finalizedEvent

--#endregion

--#region Anti-spam guard (src/background.ts lines 56 to 84)

def RATE_LIMIT_MAX : Nat := 10
def RATE_LIMIT_WINDOW_MS : Nat := 5000
def PROMPT_QUEUE_CAP : Nat := 25
def REJECTION_COOLDOWN_MS : Nat := 30000

/-- The per-host anti-spam state: rejectionCooldowns[host] (absent key is
none) and requestTimestamps[host] (absent key behaves as the empty array,
which checkRateLimit installs on first use). Times are milliseconds. -/
structure HostRL where
  cooldownUntil : Option Nat
  timestamps : List Nat
deriving DecidableEq

/-- Return value of checkRateLimit; pass models the null return. The two
non-null values are the exact disposition strings handed to logRequest. -/
inductive RateLimitResult
  | cooldown
  | rateLimited
  | pass
deriving DecidableEq

/-- The JavaScript test
  rejectionCooldowns[host] && now < rejectionCooldowns[host]
including the truthiness of the stored number (zero would be falsy). -/
def cooldownActive (cd : Option Nat) (now : Nat) : Bool :=
  match cd with
  | some c => c ≠ 0 && decide (now < c)
  | none => false

/-- checkRateLimit (src/background.ts lines 66 to 74): cooldown first, then
retain only timestamps with now - ts < RATE_LIMIT_WINDOW_MS, reject when the
retained count reaches RATE_LIMIT_MAX, else record now and pass. Nat
subtraction truncates at zero exactly like the JavaScript comparison
accepts future timestamps. -/
def checkRateLimit (s : HostRL) (now : Nat) : RateLimitResult × HostRL :=
  if cooldownActive s.cooldownUntil now then (.cooldown, s)
  else
    let kept := s.timestamps.filter (fun ts => decide (now - ts < RATE_LIMIT_WINDOW_MS))
    if RATE_LIMIT_MAX ≤ kept.length then (.rateLimited, { s with timestamps := kept })
    else (.pass, { s with timestamps := kept ++ [now] })

/-- setRejectionCooldown (src/background.ts lines 80 to 82). -/
def setRejectionCooldown (s : HostRL) (now : Nat) : HostRL :=
  { s with cooldownUntil := some (now + REJECTION_COOLDOWN_MS) }

/-- Run checkRateLimit over a sequence of request arrival times for one
host, collecting the results. -/
def runRateLimit (s : HostRL) (times : List Nat) : List RateLimitResult × HostRL :=
  match times with
  | [] => ([], s)
  | t :: ts =>
    let step := checkRateLimit s t
    let rest := runRateLimit step.2 ts
    (step.1 :: rest.1, rest.2)

--#endregion

--#region Deduplication fingerprint (src/background.ts lines 91 to 103)

/-- JavaScript template interpolation of the possibly-undefined pubkey
field: undefined renders as the text undefined. -/
def pubkeyInterp : Option String → String
  | none => "undefined"
  | some s => s

/-- JSON.stringify of the tags array (string tags, no escaping needed for
the inputs considered here). -/
def jsonStringifyTags (tags : List (List String)) : String :=
  "[" ++ String.intercalate ","
    (tags.map (fun t =>
      "[" ++ String.intercalate "," (t.map (fun s => "\"" ++ s ++ "\"")) ++ "]"))
  ++ "]"

/-- requestFingerprint (src/background.ts): keyed on the request type and
the semantic content only; the host is not an input at all. -/
def requestFingerprint (type : String) (params : PromptParams) : Option String :=
  if type = "signEvent" ∧ params.event.isSome then
    match params.event with
    | some e =>
      some ("signEvent:" ++ toString e.kind ++ ":" ++ toString e.created_at ++ ":"
        ++ pubkeyInterp e.pubkey ++ ":" ++ e.content ++ ":" ++ jsonStringifyTags e.tags)
    | none => none
  else if (type = "nip04.decrypt" ∨ type = "nip44.decrypt")
      ∧ jsTruthyStr params.peer ∧ jsTruthyStr params.ciphertext then
    some (type ++ ":" ++ pubkeyInterp params.peer ++ ":" ++ pubkeyInterp params.ciphertext)
  else if (type = "nip04.encrypt" ∨ type = "nip44.encrypt")
      ∧ jsTruthyStr params.peer ∧ jsTruthyStr params.plaintext then
    some (type ++ ":" ++ pubkeyInterp params.peer ++ ":" ++ pubkeyInterp params.plaintext)
  else none

--#endregion

--#region Admission phase of handleContentScriptMessage (src/background.ts)

/-- The request types that bypass every guard (AUTO_APPROVE_TYPES in
src/background.ts). -/
def AUTO_APPROVE_TYPES : List String := ["getPublicKey", "getRelays"]

/-- Mediator-side mutable state touched by the admission phase: the
per-host anti-spam maps, the number of open prompts (size of
openPromptMap), and the pendingSignRequests map from fingerprint to the
identifier of the in-flight request whose promise is shared. -/
structure MediatorState where
  rl : List (String × HostRL)
  openPromptCount : Nat
  pending : List (String × Nat)
deriving DecidableEq

/-- requestTimestamps[host] / rejectionCooldowns[host] with the absent-key
default installed by checkRateLimit. -/
def getHostRL (m : List (String × HostRL)) (h : String) : HostRL :=
  match m.lookup h with
  | some s => s
  | none => { cooldownUntil := none, timestamps := [] }

/-- How the admission phase of handleContentScriptMessage (src/background.ts
lines 389 to 437) disposes of a request before processRequest runs.
blocked returns an error to the caller; attachExisting returns the shared
in-flight promise of a previous identical request; startProcess continues
into processRequest (grant check, prompting, execution). -/
inductive AdmitOutcome
  | autoApprove
  | blocked (r : RateLimitResult)
  | queueFull
  | attachExisting (reqId : Nat)
  | startProcess (fp : Option String)
deriving DecidableEq

/-- The admission phase of handleContentScriptMessage in source order:
auto-approve types short-circuit; then checkRateLimit; then the prompt
queue cap; then the dedup map. newId names the promise recorded for a fresh
fingerprint. -/
def mediateRequest (st : MediatorState) (type : String) (params : PromptParams)
    (host : String) (now : Nat) (newId : Nat) : AdmitOutcome × MediatorState :=
  if AUTO_APPROVE_TYPES.contains type then (.autoApprove, st)
  else
    let step := checkRateLimit (getHostRL st.rl host) now
    let st' := { st with rl := updateAssoc st.rl host step.2 }
    match step.1 with
    | .cooldown => (.blocked .cooldown, st')
    | .rateLimited => (.blocked .rateLimited, st')
    | .pass =>
      if PROMPT_QUEUE_CAP ≤ st'.openPromptCount then (.queueFull, st')
      else
        match requestFingerprint type params with
        | none => (.startProcess none, st')
        | some fp =>
          match st'.pending.lookup fp with
          | some rid => (.attachExisting rid, st')
          | none => (.startProcess (some fp), { st' with pending := (fp, newId) :: st'.pending })

/-- The disposition string logged by the admission phase for each outcome
(logRequest calls in src/background.ts lines 400 to 434); none when the
request continues into processRequest, which logs later. -/
def loggedDisposition : AdmitOutcome → Option String
  | .autoApprove => some "auto-approved"
  | .blocked .cooldown => some "cooldown"
  | .blocked .rateLimited => some "rate-limited"
  | .blocked .pass => none
  | .queueFull => some "queue-full"
  | .attachExisting _ => some "deduped"
  | .startProcess _ => none

--#endregion

--#region Audit log (src/requestLog.ts)

/-- Maximum entries retained (MAX_ENTRIES in src/requestLog.ts). -/
def MAX_ENTRIES : Nat := 500

/-- An audit log entry (type AuditLogEntry in src/types.ts); the optional
metadata fields play no role in the claims below and are omitted, the id
and the descriptive fields are kept. -/
structure AuditEntry where
  id : Nat
  timestamp : String
  type : String
  host : String
  disposition : String
  summary : String
  silent : Bool
deriving DecidableEq

/-- The module-level mutable state of src/requestLog.ts. -/
structure AuditLogState where
  nextId : Nat
  entries : List AuditEntry
  suppressedCount : Nat
deriving DecidableEq

/-- The state after module load on a fresh install: nextId starts at 1 with
no entries. -/
def initAuditLogState : AuditLogState :=
  { nextId := 1, entries := [], suppressedCount := 0 }

/-- The inputs of one logRequest call; the timestamp string stands for
new Date toISOString at call time. -/
structure LogInput where
  timestamp : String
  type : String
  host : String
  disposition : String
  summary : String
  silent : Bool
deriving DecidableEq

/-- The trim loop of logRequest (src/requestLog.ts):
  while entries.length > MAX_ENTRIES entries.shift()
shift removes the head, so the loop drops oldest entries first. -/
def trimToMax (l : List AuditEntry) : List AuditEntry :=
  if MAX_ENTRIES < l.length then trimToMax l.tail else l
termination_by l.length
decreasing_by
  simp only [List.length_tail]
  omega

/-- logRequest (src/requestLog.ts lines 127 to 171): assign id nextId and
bump the counter, append, trim oldest-first to MAX_ENTRIES, bump
suppressedCount when silent. -/
def logRequest (s : AuditLogState) (i : LogInput) : AuditLogState :=
  let entry : AuditEntry :=
    { id := s.nextId, timestamp := i.timestamp, type := i.type, host := i.host,
      disposition := i.disposition, summary := i.summary, silent := i.silent }
  { nextId := s.nextId + 1,
    entries := trimToMax (s.entries ++ [entry]),
    suppressedCount := if i.silent then s.suppressedCount + 1 else s.suppressedCount }

/-- Fold logRequest over a sequence of calls. -/
def runLog (s : AuditLogState) (inputs : List LogInput) : AuditLogState :=
  match inputs with
  | [] => s
  | i :: rest => runLog (logRequest s i) rest

--#endregion

--#region Audit log flush and quota recovery (src/requestLog.ts lines 82 to 115)

/-- Result of one browser.storage.local.set attempt: success, a rejection
whose message mentions quota, or any other rejection. -/
inductive SetOutcome
  | ok
  | quotaError
  | otherError
deriving DecidableEq

/-- The persisted triple (audit log entries, next id, suppressed count);
none models the stored keys having been removed. -/
def StoredLog := Option (List AuditEntry × Nat × Nat)

/-- JavaScript slice with a negative start: entries.slice(-n) keeps the
last n entries (all of them when fewer). -/
def sliceLast (l : List AuditEntry) (n : Nat) : List AuditEntry :=
  l.drop (l.length - n)

/-- flushToStorage (src/requestLog.ts): the first set attempt and, only on
a quota failure, the trim to MAX_ENTRIES / 4 and a single retry; a retry
failure clears entries and suppressedCount and removes the stored keys
(removeOk false models the remove itself rejecting, swallowed by the
attached catch). The final component is the exception propagated to the
caller; every path catches, so it is built none on every branch exactly as
the try blocks dictate. -/
def flushToStorage (s : AuditLogState) (stored : StoredLog)
    (first retry : SetOutcome) (removeOk : Bool) :
    AuditLogState × StoredLog × Option String :=
  match first with
  | .ok => (s, some (s.entries, s.nextId, s.suppressedCount), none)
  | .otherError => (s, stored, none)
  | .quotaError =>
    let s' := { s with entries := sliceLast s.entries (MAX_ENTRIES / 4) }
    match retry with
    | .ok => (s', some (s'.entries, s'.nextId, s'.suppressedCount), none)
    | _ =>
      let s'' := { s' with entries := [], suppressedCount := 0 }
      (s'', if removeOk then none else stored, none)

--#endregion

--#region One explicit user rejection (src/background.ts)

/-- writeSitePermissions stores the whole permissions map under one key,
so of two overlapping read-modify-write cycles the later write replaces
the earlier one entirely: last writer wins. -/
def lastWriterWins (_w1 w2 : List (String × SitePermission)) :
    List (String × SitePermission) :=
  w2

/-- The storage effect on the permissions map of one explicit user
rejection of one open prompt with a non-null host (the prompt page always
sends its host, src/prompt.tsx sendDecision). Two Storage.incrementDenied
calls race: handlePromptMessage awaits one in its reject branch
(src/background.ts line 578) right after openPrompt.resolve(false), and
the resolved continuation of processRequest awaits another in its
not-allowed branch (line 474). resolve(false) queues that continuation as
a microtask, so it runs before the first call receives its storage
response: both read-modify-write cycles issue their reads before either
write and therefore start from the same snapshot of the map, and each
write stores the whole map, so the later write overwrites the earlier
(lastWriterWins). The net effect of the rejection is the second
cycle's result computed from the original snapshot. -/
def userRejectionDeniedEffects (perms : List (String × SitePermission))
    (host : String) : List (String × SitePermission) :=
  lastWriterWins (incrementDenied perms host) (incrementDenied perms host)

--#endregion

--#region Derived notions used by the theorems

/-- The relationship invariant: no two grants of one site share a
capability. -/
def capsNodup (l : List CapabilityGrant) : Prop :=
  (l.map (fun g => g.capability)).Nodup

/-- The ids handed out to the first n logRequest calls from a fresh state:
1 up to n. -/
def allIds (n : Nat) : List Nat := (List.range n).map (fun k => k + 1)

--#endregion

--#region Claim C1

/-- Claim C1: the claim states that immediately after addGrant with
duration once creates a grant with expires_at equal to the current time, a
hasActiveGrant lookup at that same time still returns the grant, the
expiry check treating expires_at equal to now as still valid. Evaluating
the embedded code at the failing input: addGrant at second 1000 stores the
grant with expires_at = 1000, and hasActiveGrant at second 1000 returns
none, because the continue condition expires_at <= now in hasActiveGrant
(src/options.tsx) already fires at equality. The grant is therefore never
returned and the consumeOnceGrant call guarded by a successful lookup
(checkExistingGrant in src/background.ts) is unreachable for once grants,
contradicting the source comment that the grant will be consumed
immediately. -/
theorem c1_once_grant_invisible_at_creation :
    addGrant [] "app.example" .signEvent .once none 1000 =
      [("app.example",
        { host := "app.example", first_seen := 1000, last_active := 1000,
          request_count := 0, denied_count := 0,
          grants := [{ capability := .signEvent, granted_at := 1000,
                       expires_at := some 1000, duration := .once,
                       allowedKinds := none }] })] ∧
    hasActiveGrant (addGrant [] "app.example" .signEvent .once none 1000)
      "app.example" .signEvent none 1000 = none := by
  decide

--#endregion

--#region Claim C2

/-- Claim C2 counterexample: the claim as stated quantifies over every
declared author pubkey different from the active one, but a declared empty
pubkey is falsy in JavaScript, so the mismatch guard in processRequest
(src/background.ts) does not fire and execution reaches finalizeEvent even
though the declared pubkey (the empty string) differs from the active
public key. -/
theorem c2_counterexample :
    (let e : EventIn := { kind := 1, created_at := 0, pubkey := some "",
                          content := "hello", tags := [] }
     e.pubkey = some "" ∧ ("" : String) ≠ "ab" ∧
     signEventBranch (some e) "ab" = .finalizedEvent) := by
  decide

/-- Claim C2 (amended): for every signEvent request whose event carries a
nonempty declared author pubkey different from the public key derived from
the active private key, the request fails with the pubkey-mismatch error
before any signing is performed, so finalizeEvent is never reached. -/
theorem c2_pubkey_mismatch_fails_before_signing (e : EventIn) (p activePubKey : String)
    (hp : e.pubkey = some p) (hne : p ≠ "") (hmismatch : p ≠ activePubKey) :
    signEventBranch (some e) activePubKey = .pubkeyMismatchError := by
  simp [signEventBranch, hp, hne, hmismatch]

/-- Claim C2 witness: the amended theorem applied at a concrete event. -/
theorem c2_pubkey_mismatch_witness :
    signEventBranch
      (some { kind := 1, created_at := 0, pubkey := some "bb",
              content := "x", tags := [] }) "aa" = .pubkeyMismatchError :=
  c2_pubkey_mismatch_fails_before_signing
    { kind := 1, created_at := 0, pubkey := some "bb", content := "x", tags := [] }
    "bb" "aa" rfl (by decide) (by decide)

--#endregion

--#region Claim C3

/-- Claim C3 counterexample: the claim states that the unmapped kind 50000
falls into the ephemeral-range default low, but 50000 lies outside the
range 20000 to 29999, so getKindRisk returns the unmapped default medium. -/
theorem c3_counterexample :
    getKindRisk 50000 = .medium ∧ KindRiskTier.medium ≠ KindRiskTier.low := by
  decide

/-- Claim C3 (amended): the risk classifier is a pure total function on
event kinds with kind 1 low, kind 4 high, kind 9734 critical, kind 22242
low, and the unmapped kind 50000 medium (the out-of-range default), with
range fallbacks for unmapped kinds: 20000 to 29999 low, 10000 to 19999
medium, 30000 to 39999 medium, and medium otherwise. -/
theorem c3_risk_classification :
    getKindRisk 1 = .low ∧ getKindRisk 4 = .high ∧ getKindRisk 9734 = .critical ∧
    getKindRisk 22242 = .low ∧ getKindRisk 50000 = .medium ∧
    (∀ k : Nat, KIND_RISK k = none → 20000 ≤ k → k < 30000 → getKindRisk k = .low) ∧
    (∀ k : Nat, KIND_RISK k = none → 10000 ≤ k → k < 20000 → getKindRisk k = .medium) ∧
    (∀ k : Nat, KIND_RISK k = none → 30000 ≤ k → k < 40000 → getKindRisk k = .medium) ∧
    (∀ k : Nat, KIND_RISK k = none → k < 10000 ∨ 40000 ≤ k → getKindRisk k = .medium) := by
  refine ⟨by decide, by decide, by decide, by decide, by decide, ?_, ?_, ?_, ?_⟩
  · intro k hk h1 h2
    simp only [getKindRisk, hk]
    rw [if_pos ⟨h1, h2⟩]
  · intro k hk h1 h2
    simp only [getKindRisk, hk]
    rw [if_neg (by omega), if_pos ⟨h1, h2⟩]
  · intro k hk h1 h2
    simp only [getKindRisk, hk]
    rw [if_neg (by omega), if_neg (by omega), if_pos ⟨h1, h2⟩]
  · intro k hk h
    simp only [getKindRisk, hk]
    rw [if_neg (by omega), if_neg (by omega), if_neg (by omega)]

/-- Claim C3 witness: the amended theorem applied at concrete kinds from
each fallback range. -/
theorem c3_risk_classification_witness :
    getKindRisk 1 = .low ∧ getKindRisk 25000 = .low ∧ getKindRisk 15000 = .medium ∧
    getKindRisk 35000 = .medium ∧ getKindRisk 45000 = .medium := by
  have h := c3_risk_classification
  exact ⟨h.1,
    h.2.2.2.2.2.1 25000 (by decide) (by decide) (by decide),
    h.2.2.2.2.2.2.1 15000 (by decide) (by decide) (by decide),
    h.2.2.2.2.2.2.2.1 35000 (by decide) (by decide) (by decide),
    h.2.2.2.2.2.2.2.2 45000 (by decide) (Or.inr (by decide))⟩

--#endregion

--#region Claim C9

lemma capsNodup_filter (l : List CapabilityGrant) (p : CapabilityGrant → Bool)
    (h : capsNodup l) : capsNodup (l.filter p) :=
  List.Nodup.sublist ((List.filter_sublist l).map (fun g => g.capability)) h

lemma capsNodup_replace (l : List CapabilityGrant) (c : Capability)
    (grant : CapabilityGrant) (hcap : grant.capability = c) (h : capsNodup l) :
    capsNodup ((l.filter (fun g => g.capability ≠ c)) ++ [grant]) := by
  have hf : capsNodup (l.filter (fun g => g.capability ≠ c)) := capsNodup_filter l _ h
  unfold capsNodup at *
  rw [List.map_append, List.nodup_append]
  refine ⟨hf, List.nodup_singleton _, ?_⟩
  intro a ha hb
  simp only [List.map_cons, List.map_nil, List.mem_singleton] at hb
  obtain ⟨x, hx, hxa⟩ := List.mem_map.mp ha
  have hpx := List.of_mem_filter hx
  simp only [ne_eq, decide_not, Bool.not_eq_eq_eq_not, Bool.not_true,
    decide_eq_false_iff_not] at hpx
  exact hpx (hxa.trans (hb.trans hcap))

lemma mem_updateAssoc {α : Type} {m : List (String × α)} {h : String} {v : α}
    {p : String × α} (hp : p ∈ updateAssoc m h v) : p ∈ m ∨ p = (h, v) := by
  induction m with
  | nil =>
    simp only [updateAssoc, List.mem_singleton] at hp
    exact Or.inr hp
  | cons q rest ih =>
    obtain ⟨k, w⟩ := q
    simp only [updateAssoc] at hp
    by_cases hk : k = h
    · rw [if_pos hk] at hp
      rcases List.mem_cons.mp hp with h1 | h1
      · exact Or.inr h1
      · exact Or.inl (List.mem_cons_of_mem _ h1)
    · rw [if_neg hk] at hp
      rcases List.mem_cons.mp hp with h1 | h1
      · exact Or.inl (h1 ▸ List.mem_cons_self _ _)
      · rcases ih h1 with h2 | h2
        · exact Or.inl (List.mem_cons_of_mem _ h2)
        · exact Or.inr h2

lemma lookup_mem {α : Type} {m : List (String × α)} {h : String} {v : α}
    (hl : m.lookup h = some v) : (h, v) ∈ m := by
  induction m with
  | nil => simp [List.lookup] at hl
  | cons q rest ih =>
    obtain ⟨k, w⟩ := q
    simp only [List.lookup] at hl
    by_cases hk : h == k
    · rw [hk] at hl
      simp only [Option.some.injEq] at hl
      have : h = k := by
        have := eq_of_beq hk
        exact this
      exact this ▸ hl ▸ List.mem_cons_self _ _
    · rw [Bool.not_eq_true] at hk
      rw [hk] at hl
      exact List.mem_cons_of_mem _ (ih hl)

lemma updateAssoc_grants_inv {perms : List (String × SitePermission)} {host : String}
    (hinv : ∀ p ∈ perms, capsNodup p.2.grants) (news : SitePermission)
    (hnew : capsNodup news.grants) :
    ∀ p ∈ updateAssoc perms host news, capsNodup p.2.grants := by
  intro p hp
  rcases mem_updateAssoc hp with h1 | h1
  · exact hinv p h1
  · rw [h1]
    exact hnew

/-- Claim C9: for every host and capability, a SitePermission grants array
never contains two grants with the same capability: addGrant removes any
existing grant for the capability before appending the new one, and each
of the other grant-store operations (consumeOnceGrant, revokeGrant,
revokeAllGrants, purgeExpiredGrants, clearSessionGrants) only filters
grants away, so each operation preserves the invariant. -/
theorem c9_at_most_one_grant_per_capability
    (perms : List (String × SitePermission)) (host : String) (c c2 : Capability)
    (dur : PermissionDuration) (kinds : Option (List Nat)) (now : Nat)
    (hinv : ∀ p ∈ perms, capsNodup p.2.grants) :
    (∀ p ∈ addGrant perms host c dur kinds now, capsNodup p.2.grants) ∧
    (∀ p ∈ consumeOnceGrant perms host c2, capsNodup p.2.grants) ∧
    (∀ p ∈ revokeGrant perms host c2, capsNodup p.2.grants) ∧
    (∀ p ∈ revokeAllGrants perms host, capsNodup p.2.grants) ∧
    (∀ p ∈ purgeExpiredGrants perms now, capsNodup p.2.grants) ∧
    (∀ p ∈ clearSessionGrants perms, capsNodup p.2.grants) := by
  have hsite : ∀ s : SitePermission, perms.lookup host = some s → capsNodup s.grants :=
    fun s hl => hinv (host, s) (lookup_mem hl)
  refine ⟨?_, ?_, ?_, ?_, ?_, ?_⟩
  · -- addGrant
    unfold addGrant
    cases hl : perms.lookup host with
    | none =>
      exact updateAssoc_grants_inv hinv _
        (capsNodup_replace [] c _ rfl (by simp [capsNodup]))
    | some s =>
      exact updateAssoc_grants_inv hinv _ (capsNodup_replace s.grants c _ rfl (hsite s hl))
  · -- consumeOnceGrant
    unfold consumeOnceGrant
    cases hl : perms.lookup host with
    | none => exact hinv
    | some s =>
      exact updateAssoc_grants_inv hinv _ (capsNodup_filter s.grants _ (hsite s hl))
  · -- revokeGrant
    unfold revokeGrant
    cases hl : perms.lookup host with
    | none => exact hinv
    | some s =>
      exact updateAssoc_grants_inv hinv _ (capsNodup_filter s.grants _ (hsite s hl))
  · -- revokeAllGrants
    unfold revokeAllGrants
    cases hl : perms.lookup host with
    | none => exact hinv
    | some s =>
      exact updateAssoc_grants_inv hinv _ (by simp [capsNodup])
  · -- purgeExpiredGrants
    intro p hp
    obtain ⟨q, hq, hqp⟩ := List.mem_map.mp hp
    rw [← hqp]
    exact capsNodup_filter q.2.grants _ (hinv q hq)
  · -- clearSessionGrants
    intro p hp
    obtain ⟨q, hq, hqp⟩ := List.mem_map.mp hp
    rw [← hqp]
    exact capsNodup_filter q.2.grants _ (hinv q hq)

/-- Claim C9 witness: the invariant-preservation theorem applied to a
concrete store holding one site with two distinct-capability grants; the
grants list produced by addGrant replacing the signEvent grant still has
no duplicate capability. -/
theorem c9_witness :
    capsNodup
      [{ capability := .getRelays, granted_at := 1, expires_at := some 9,
         duration := .hours1, allowedKinds := none },
       { capability := .signEvent, granted_at := 5, expires_at := none,
         duration := .forever, allowedKinds := none }] := by
  have h := c9_at_most_one_grant_per_capability
    [("iris.to",
      { host := "iris.to", first_seen := 1, last_active := 2, request_count := 3,
        denied_count := 0,
        grants := [{ capability := .signEvent, granted_at := 1, expires_at := none,
                     duration := .forever, allowedKinds := none },
                   { capability := .getRelays, granted_at := 1, expires_at := some 9,
                     duration := .hours1, allowedKinds := none }] })]
    "iris.to" .signEvent .getPublicKey .forever none 5 ?_
  · exact h.1
      ("iris.to",
        { host := "iris.to", first_seen := 1, last_active := 2, request_count := 3,
          denied_count := 0,
          grants := [{ capability := .getRelays, granted_at := 1, expires_at := some 9,
                       duration := .hours1, allowedKinds := none },
                     { capability := .signEvent, granted_at := 5, expires_at := none,
                       duration := .forever, allowedKinds := none }] })
      (by decide)
  · intro p hp
    simp only [List.mem_singleton] at hp
    subst hp
    unfold capsNodup
    decide

--#endregion

--#region Claim C4

lemma filter_window_eq_self {now T : Nat} {l : List Nat}
    (hnow : now < T + RATE_LIMIT_WINDOW_MS) (hl : ∀ t ∈ l, T ≤ t) :
    l.filter (fun ts => decide (now - ts < RATE_LIMIT_WINDOW_MS)) = l := by
  apply List.filter_eq_self.mpr
  intro a ha
  have := hl a ha
  simp only [decide_eq_true_eq]
  unfold RATE_LIMIT_WINDOW_MS at *
  omega

lemma runRateLimit_all_pass (T : Nat) (times : List Nat) :
    ∀ acc : List Nat,
    acc.length + times.length ≤ RATE_LIMIT_MAX →
    (∀ t ∈ acc, T ≤ t) →
    (∀ t ∈ times, T ≤ t ∧ t < T + RATE_LIMIT_WINDOW_MS) →
    runRateLimit { cooldownUntil := none, timestamps := acc } times =
      (List.replicate times.length RateLimitResult.pass,
       { cooldownUntil := none, timestamps := acc ++ times }) := by
  induction times with
  | nil =>
    intro acc _ _ _
    simp [runRateLimit]
  | cons t ts ih =>
    intro acc hlen hacc htimes
    have ht := htimes t (List.mem_cons_self _ _)
    have hfil : acc.filter (fun x => decide (t - x < RATE_LIMIT_WINDOW_MS)) = acc :=
      filter_window_eq_self ht.2 hacc
    have hnotfull : ¬ RATE_LIMIT_MAX ≤ acc.length := by
      simp only [List.length_cons] at hlen
      omega
    have hrest :
        runRateLimit { cooldownUntil := none, timestamps := acc ++ [t] } ts =
          (List.replicate ts.length RateLimitResult.pass,
           { cooldownUntil := none, timestamps := (acc ++ [t]) ++ ts }) := by
      apply ih
      · simp only [List.length_append, List.length_cons, List.length_nil] at *
        omega
      · intro x hx
        rcases List.mem_append.mp hx with h1 | h1
        · exact hacc x h1
        · rw [List.mem_singleton.mp h1]
          exact ht.1
      · intro x hx
        exact htimes x (List.mem_cons_of_mem _ hx)
    have hck : checkRateLimit { cooldownUntil := none, timestamps := acc } t =
        (RateLimitResult.pass, { cooldownUntil := none, timestamps := acc ++ [t] }) := by
      simp only [checkRateLimit, cooldownActive]
      rw [if_neg Bool.false_ne_true, hfil, if_neg hnotfull]
    simp only [runRateLimit]
    rw [hck]
    simp only []
    rw [hrest]
    simp [List.replicate_succ, List.append_assoc]

lemma runRateLimit_append (s : HostRL) (l1 l2 : List Nat) :
    runRateLimit s (l1 ++ l2) =
      ((runRateLimit s l1).1 ++ (runRateLimit (runRateLimit s l1).2 l2).1,
       (runRateLimit (runRateLimit s l1).2 l2).2) := by
  induction l1 generalizing s with
  | nil => simp [runRateLimit]
  | cons t ts ih => simp [runRateLimit, ih]

/-- Claim C4: for a host with no cooldown, when 11 requests arrive inside a
5-second window the first 10 pass the rate-limit check and the 11th is
rejected with the rate-limited disposition; once every retained timestamp
is at least 5 seconds old, a new request passes the check again. -/
theorem c4_rate_limit_window (T : Nat) (times : List Nat) (tNext : Nat)
    (hlen : times.length = 11)
    (hwin : ∀ t ∈ times, T ≤ t ∧ t < T + RATE_LIMIT_WINDOW_MS)
    (hNext : ∀ ts ∈ (runRateLimit { cooldownUntil := none, timestamps := [] } times).2.timestamps,
      ts + RATE_LIMIT_WINDOW_MS ≤ tNext) :
    (runRateLimit { cooldownUntil := none, timestamps := [] } times).1 =
      List.replicate 10 RateLimitResult.pass ++ [RateLimitResult.rateLimited] ∧
    (checkRateLimit (runRateLimit { cooldownUntil := none, timestamps := [] } times).2 tNext).1 =
      RateLimitResult.pass := by
  have hsplit : times.take 10 ++ times.drop 10 = times := List.take_append_drop 10 times
  have hdlen : (times.drop 10).length = 1 := by
    rw [List.length_drop, hlen]
  obtain ⟨t11, h11⟩ := List.length_eq_one.mp hdlen
  have hlen10 : (times.take 10).length = 10 := by
    rw [List.length_take, hlen]
    omega
  have hmem10 : ∀ t ∈ times.take 10, T ≤ t ∧ t < T + RATE_LIMIT_WINDOW_MS :=
    fun t ht => hwin t (List.mem_of_mem_take ht)
  have ht11 : T ≤ t11 ∧ t11 < T + RATE_LIMIT_WINDOW_MS := by
    apply hwin
    rw [← hsplit, h11]
    exact List.mem_append_right _ (List.mem_singleton_self _)
  have h1 : runRateLimit { cooldownUntil := none, timestamps := [] } (times.take 10) =
      (List.replicate 10 RateLimitResult.pass,
       { cooldownUntil := none, timestamps := times.take 10 }) := by
    have := runRateLimit_all_pass T (times.take 10) []
      (by rw [List.length_nil, hlen10]; decide)
      (by intro t ht; cases ht)
      hmem10
    rw [hlen10] at this
    simpa using this
  have hstep : checkRateLimit { cooldownUntil := none, timestamps := times.take 10 } t11 =
      (RateLimitResult.rateLimited, { cooldownUntil := none, timestamps := times.take 10 }) := by
    simp only [checkRateLimit, cooldownActive]
    rw [if_neg Bool.false_ne_true]
    rw [filter_window_eq_self ht11.2 (fun t ht => (hmem10 t ht).1)]
    rw [if_pos (by rw [hlen10]; decide)]
  have heq : times = times.take 10 ++ [t11] := by
    rw [← h11, hsplit]
  have hrun : runRateLimit { cooldownUntil := none, timestamps := [] } times =
      (List.replicate 10 RateLimitResult.pass ++ [RateLimitResult.rateLimited],
       { cooldownUntil := none, timestamps := times.take 10 }) := by
    conv_lhs => rw [heq]
    rw [runRateLimit_append, h1]
    simp [runRateLimit, hstep]
  rw [hrun] at hNext ⊢
  refine ⟨rfl, ?_⟩
  simp only [checkRateLimit, cooldownActive]
  have hempty : (times.take 10).filter (fun ts => decide (tNext - ts < RATE_LIMIT_WINDOW_MS)) = [] := by
    apply List.filter_eq_nil_iff.mpr
    intro a ha
    have := hNext a ha
    simp only [decide_eq_true_eq]
    omega
  rw [hempty]
  simp [RATE_LIMIT_MAX]

/-- Claim C4 witness: eleven requests at millisecond 0 and a twelfth at
millisecond 5000. -/
theorem c4_rate_limit_window_witness :
    (List.replicate 11 0).length = 11 ∧
    (∀ t ∈ List.replicate 11 (0 : Nat), 0 ≤ t ∧ t < 0 + RATE_LIMIT_WINDOW_MS) ∧
    (∀ ts ∈ (runRateLimit { cooldownUntil := none, timestamps := [] }
        (List.replicate 11 0)).2.timestamps, ts + RATE_LIMIT_WINDOW_MS ≤ 5000) ∧
    ((runRateLimit { cooldownUntil := none, timestamps := [] } (List.replicate 11 0)).1 =
      List.replicate 10 RateLimitResult.pass ++ [RateLimitResult.rateLimited] ∧
     (checkRateLimit (runRateLimit { cooldownUntil := none, timestamps := [] }
        (List.replicate 11 0)).2 5000).1 = RateLimitResult.pass) :=
  ⟨by decide, by decide, by decide,
   c4_rate_limit_window 0 (List.replicate 11 0) 5000 (by decide) (by decide) (by decide)⟩

--#endregion

--#region Claim C5

/-- Claim C5: after an explicit user rejection for host H at time t0
(setRejectionCooldown stores t0 plus 30000 milliseconds), every
non-auto-approved request from H arriving while now < t0 + 30000 is
rejected with the cooldown disposition and never reaches the prompt path:
the admission outcome is blocked, the open-prompt count and the pending
dedup map are untouched. The state st is arbitrary, so the conclusion
holds whatever requestTimestamps holds for H: the cooldown branch of
checkRateLimit runs before the rate-limit comparison. -/
theorem c5_rejection_cooldown (st : MediatorState) (host : String) (prev : HostRL)
    (t0 now newId : Nat) (type : String) (params : PromptParams)
    (htype : AUTO_APPROVE_TYPES.contains type = false)
    (hcd : getHostRL st.rl host = setRejectionCooldown prev t0)
    (hnow : now < t0 + REJECTION_COOLDOWN_MS) :
    (mediateRequest st type params host now newId).1 = .blocked .cooldown ∧
    loggedDisposition (mediateRequest st type params host now newId).1 = some "cooldown" ∧
    (mediateRequest st type params host now newId).2.openPromptCount = st.openPromptCount ∧
    (mediateRequest st type params host now newId).2.pending = st.pending := by
  have hactive : cooldownActive (some (t0 + REJECTION_COOLDOWN_MS)) now = true := by
    simp only [cooldownActive, Bool.and_eq_true, decide_eq_true_eq, ne_eq]
    refine ⟨?_, hnow⟩
    unfold REJECTION_COOLDOWN_MS
    omega
  have hck : checkRateLimit (getHostRL st.rl host) now = (.cooldown, getHostRL st.rl host) := by
    rw [hcd]
    simp only [checkRateLimit, setRejectionCooldown]
    rw [if_pos hactive]
  have hmain : mediateRequest st type params host now newId =
      (AdmitOutcome.blocked .cooldown,
       { st with rl := updateAssoc st.rl host (getHostRL st.rl host) }) := by
    simp only [mediateRequest]
    rw [htype, if_neg Bool.false_ne_true, hck]
  rw [hmain]
  exact ⟨rfl, rfl, rfl, rfl⟩

/-- Claim C5 witness: the cooldown theorem applied to a host that was
rejected at millisecond 1000 and retries at millisecond 30999 with a full
rate-limit window, showing the cooldown disposition wins. -/
theorem c5_rejection_cooldown_witness :
    (mediateRequest
      { rl := [("evil.example",
          setRejectionCooldown { cooldownUntil := none, timestamps := List.replicate 10 0 } 1000)],
        openPromptCount := 0, pending := [] }
      "signEvent" { peer := none, plaintext := none, ciphertext := none, event := none }
      "evil.example" 30999 1).1 = .blocked .cooldown :=
  (c5_rejection_cooldown
    { rl := [("evil.example",
        setRejectionCooldown { cooldownUntil := none, timestamps := List.replicate 10 0 } 1000)],
      openPromptCount := 0, pending := [] }
    "evil.example" { cooldownUntil := none, timestamps := List.replicate 10 0 } 1000 30999 1
    "signEvent" { peer := none, plaintext := none, ciphertext := none, event := none }
    (by decide) (by decide) (by decide)).1

--#endregion

--#region Claim C10

/-- Claim C10: the deduplication fingerprint is computed only from the
request type and semantic content: for signEvent only the event (kind,
created_at, pubkey, content, tags) matters, for decrypt only the peer and
ciphertext; no host enters (requestFingerprint takes no host at all). As a
consequence, when a request from one host is in flight under fingerprint
fp, a request with identical content arriving from any host, in
particular a different one, is admitted as attachExisting: it receives
the in-flight promise of the first request, logged deduped, without its
own grant check or prompt (those happen only behind startProcess), and
the pending map is unchanged. -/
theorem c10_fingerprint_has_no_host_component (st : MediatorState) (type : String)
    (params : PromptParams) (host2 : String) (now newId rid : Nat) (fp : String)
    (htype : AUTO_APPROVE_TYPES.contains type = false)
    (hfp : requestFingerprint type params = some fp)
    (hpend : st.pending.lookup fp = some rid)
    (hcd : cooldownActive (getHostRL st.rl host2).cooldownUntil now = false)
    (hrate : ((getHostRL st.rl host2).timestamps.filter
        (fun ts => decide (now - ts < RATE_LIMIT_WINDOW_MS))).length < RATE_LIMIT_MAX)
    (hqueue : st.openPromptCount < PROMPT_QUEUE_CAP) :
    (∀ p1 p2 : PromptParams, p1.event = p2.event →
        requestFingerprint "signEvent" p1 = requestFingerprint "signEvent" p2) ∧
    (∀ p1 p2 : PromptParams, p1.peer = p2.peer → p1.ciphertext = p2.ciphertext →
        requestFingerprint "nip04.decrypt" p1 = requestFingerprint "nip04.decrypt" p2) ∧
    (mediateRequest st type params host2 now newId).1 = .attachExisting rid ∧
    loggedDisposition (mediateRequest st type params host2 now newId).1 = some "deduped" ∧
    (mediateRequest st type params host2 now newId).2.pending = st.pending := by
  have hck : checkRateLimit (getHostRL st.rl host2) now =
      (RateLimitResult.pass,
       { getHostRL st.rl host2 with timestamps :=
           ((getHostRL st.rl host2).timestamps.filter
             (fun ts => decide (now - ts < RATE_LIMIT_WINDOW_MS))) ++ [now] }) := by
    simp only [checkRateLimit]
    rw [hcd, if_neg Bool.false_ne_true, if_neg (by omega)]
  have hmain : mediateRequest st type params host2 now newId =
      (AdmitOutcome.attachExisting rid,
       { st with rl := updateAssoc st.rl host2 (checkRateLimit (getHostRL st.rl host2) now).2 }) := by
    simp only [mediateRequest]
    rw [htype, if_neg Bool.false_ne_true, hck]
    simp only []
    rw [if_neg (by omega), hfp]
    simp only []
    rw [hpend]
  refine ⟨?_, ?_, ?_, ?_, ?_⟩
  · intro p1 p2 h
    simp [requestFingerprint, h]
  · intro p1 p2 h1 h2
    simp [requestFingerprint, h1, h2]
  · rw [hmain]
  · rw [hmain]
    rfl
  · rw [hmain]

/-- Claim C10 witness: an in-flight signEvent from one host (pending id 7)
and an identical request from a different host, which attaches to it. -/
theorem c10_fingerprint_has_no_host_component_witness :
    (mediateRequest
      { rl := [("iris.to", { cooldownUntil := none, timestamps := [50] })],
        openPromptCount := 3,
        pending := [("signEvent:1:100:undefined:hi:[]", 7)] }
      "signEvent"
      { peer := none, plaintext := none, ciphertext := none,
        event := some { kind := 1, created_at := 100, pubkey := none,
                        content := "hi", tags := [] } }
      "snort.social" 60 8).1 = .attachExisting 7 :=
  (c10_fingerprint_has_no_host_component
    { rl := [("iris.to", { cooldownUntil := none, timestamps := [50] })],
      openPromptCount := 3,
      pending := [("signEvent:1:100:undefined:hi:[]", 7)] }
    "signEvent"
    { peer := none, plaintext := none, ciphertext := none,
      event := some { kind := 1, created_at := 100, pubkey := none,
                      content := "hi", tags := [] } }
    "snort.social" 60 8 7 "signEvent:1:100:undefined:hi:[]"
    (by decide) (by decide) (by decide) (by decide) (by decide) (by decide)).2.2.1

--#endregion

--#region Claim C7

lemma trimToMax_eq_drop : ∀ l : List AuditEntry, trimToMax l = l.drop (l.length - MAX_ENTRIES) := by
  have key : ∀ (n : Nat) (l : List AuditEntry), l.length ≤ n →
      trimToMax l = l.drop (l.length - MAX_ENTRIES) := by
    intro n
    induction n with
    | zero =>
      intro l hl
      have h0 : l.length = 0 := by omega
      rw [trimToMax, if_neg (by omega)]
      rw [h0]
      simp
    | succ n ih =>
      intro l hl
      rw [trimToMax]
      by_cases h : MAX_ENTRIES < l.length
      · rw [if_pos h]
        rw [ih l.tail (by simp only [List.length_tail]; omega)]
        cases l with
        | nil => simp at h
        | cons a t =>
          simp only [List.tail_cons, List.length_cons]
          have harith : t.length + 1 - MAX_ENTRIES = (t.length - MAX_ENTRIES) + 1 := by
            simp only [List.length_cons] at h
            omega
          rw [harith, List.drop_succ_cons]
      · rw [if_neg h]
        have h0 : l.length - MAX_ENTRIES = 0 := by omega
        rw [h0, List.drop_zero]
  exact fun l => key l.length l le_rfl

lemma allIds_length (n : Nat) : (allIds n).length = n := by
  simp [allIds]

lemma allIds_succ (n : Nat) : allIds (n + 1) = allIds n ++ [n + 1] := by
  simp [allIds, List.range_succ]

lemma runLog_ids (inputs : List LogInput) :
    ∀ (s : AuditLogState) (n : Nat), s.nextId = n + 1 →
    s.entries.map (fun e => e.id) = (allIds n).drop (n - MAX_ENTRIES) →
    (runLog s inputs).nextId = n + inputs.length + 1 ∧
    (runLog s inputs).entries.map (fun e => e.id) =
      (allIds (n + inputs.length)).drop ((n + inputs.length) - MAX_ENTRIES) := by
  induction inputs with
  | nil =>
    intro s n h1 h2
    exact ⟨by simp [runLog, h1], by simpa [runLog] using h2⟩
  | cons i rest ih =>
    intro s n h1 h2
    have hslen : s.entries.length = n - (n - MAX_ENTRIES) := by
      have := congrArg List.length h2
      simpa [allIds_length] using this
    have hnext : (logRequest s i).nextId = (n + 1) + 1 := by
      simp [logRequest, h1]
    have hids : (logRequest s i).entries.map (fun e => e.id) =
        (allIds (n + 1)).drop ((n + 1) - MAX_ENTRIES) := by
      have happend : (s.entries ++
          [{ id := s.nextId, timestamp := i.timestamp, type := i.type, host := i.host,
             disposition := i.disposition, summary := i.summary,
             silent := i.silent : AuditEntry }]).map (fun e => e.id) =
          (allIds (n + 1)).drop (n - MAX_ENTRIES) := by
        rw [List.map_append, h2, h1]
        rw [allIds_succ]
        rw [List.drop_append_eq_append_drop]
        have : n - MAX_ENTRIES - (allIds n).length = 0 := by
          rw [allIds_length]
          omega
        rw [this, List.drop_zero]
        simp
      have hidx : ∀ x : AuditEntry,
          (n - MAX_ENTRIES) + ((s.entries ++ [x]).length - MAX_ENTRIES) =
            (n + 1) - MAX_ENTRIES := by
        intro x
        rw [List.length_append, hslen]
        simp only [List.length_cons, List.length_nil]
        unfold MAX_ENTRIES
        omega
      simp only [logRequest, trimToMax_eq_drop, List.map_drop, happend]
      rw [List.drop_drop, hidx]
    have h := ih (logRequest s i) (n + 1) hnext hids
    have harith : n + 1 + rest.length = n + (i :: rest).length := by
      simp only [List.length_cons]
      omega
    rw [harith] at h
    exact ⟨by rw [runLog]; exact h.1, by rw [runLog]; exact h.2⟩

/-- Claim C7: for every sequence of logRequest calls from the fresh state,
the audit log retains at most MAX_ENTRIES entries (exactly the most recent
min n 500), eviction is oldest-first: the retained ids are the final
segment of the assigned id sequence 1..n with the earliest ids dropped,
and the ids are strictly increasing throughout. -/
theorem c7_audit_log_eviction (inputs : List LogInput) :
    (runLog initAuditLogState inputs).entries.length = min inputs.length MAX_ENTRIES ∧
    (runLog initAuditLogState inputs).entries.map (fun e => e.id) =
      (allIds inputs.length).drop (inputs.length - MAX_ENTRIES) ∧
    ((runLog initAuditLogState inputs).entries.map (fun e => e.id)).Pairwise (· < ·) := by
  have h := runLog_ids inputs initAuditLogState 0 rfl (by simp [initAuditLogState, allIds])
  have hids := h.2
  rw [Nat.zero_add] at hids
  have hpair : ((allIds inputs.length).drop (inputs.length - MAX_ENTRIES)).Pairwise (· < ·) := by
    apply List.Pairwise.sublist (List.drop_sublist _ _)
    exact List.Pairwise.map _ (fun a b hab => Nat.add_lt_add_right hab 1)
      (List.pairwise_lt_range _)
  refine ⟨?_, hids, hids ▸ hpair⟩
  have := congrArg List.length hids
  simp only [List.length_map, List.length_drop, allIds_length] at this
  rw [this]
  omega

--#endregion

--#region Claim C8

/-- Claim C8: when the audit-log persistence write fails with a
storage-quota error, the flush first trims the in-memory entries to one
quarter of the cap (the most recent 125 of 500) and retries once; when the
retry also fails the log is cleared entirely: entries emptied, suppressed
count zeroed, stored keys removed; and no flush path ever propagates an
exception toward the requesting origin. -/
theorem c8_flush_quota_recovery (s : AuditLogState) (stored : StoredLog)
    (retry : SetOutcome) (removeOk : Bool)
    (hlen : s.entries.length = 500)
    (hretry : retry ≠ SetOutcome.ok) :
    (flushToStorage s stored .quotaError .ok removeOk).1.entries = s.entries.drop 375 ∧
    (flushToStorage s stored .quotaError .ok removeOk).1.entries.length = 125 ∧
    (flushToStorage s stored .quotaError .ok removeOk).2.1 =
      some (s.entries.drop 375, s.nextId, s.suppressedCount) ∧
    (flushToStorage s stored .quotaError retry true).1.entries = [] ∧
    (flushToStorage s stored .quotaError retry true).1.suppressedCount = 0 ∧
    (flushToStorage s stored .quotaError retry true).2.1 = none ∧
    (∀ o1 o2 : SetOutcome, ∀ r : Bool, (flushToStorage s stored o1 o2 r).2.2 = none) := by
  have hslice : sliceLast s.entries (MAX_ENTRIES / 4) = s.entries.drop 375 := by
    unfold sliceLast MAX_ENTRIES
    rw [hlen]
  have hfail : flushToStorage s stored .quotaError retry true =
      ({ s with entries := [], suppressedCount := 0 }, none, none) := by
    cases retry with
    | ok => exact absurd rfl hretry
    | quotaError => rfl
    | otherError => rfl
  refine ⟨?_, ?_, ?_, ?_, ?_, ?_, ?_⟩
  · simpa [flushToStorage] using hslice
  · simp only [flushToStorage, hslice]
    rw [List.length_drop, hlen]
  · simp [flushToStorage, hslice]
  · rw [hfail]
  · rw [hfail]
  · rw [hfail]
  · intro o1 o2 r
    cases o1 <;> cases o2 <;> cases r <;> rfl

/-- Claim C8 witness: the quota-recovery theorem applied to a concrete
full log of 500 entries: the cleared-log branch. -/
theorem c8_flush_quota_recovery_witness :
    (flushToStorage
      { nextId := 501,
        entries := (List.range 500).map (fun k =>
          { id := k + 1, timestamp := "t", type := "signEvent", host := "h",
            disposition := "approved", summary := "sign", silent := false }),
        suppressedCount := 3 }
      none .quotaError .quotaError true).1.entries = [] :=
  (c8_flush_quota_recovery
    { nextId := 501,
      entries := (List.range 500).map (fun k =>
        { id := k + 1, timestamp := "t", type := "signEvent", host := "h",
          disposition := "approved", summary := "sign", silent := false }),
      suppressedCount := 3 }
    none .quotaError true (by simp) (by decide)).2.2.2.1

--#endregion

--#region Claim C6

lemma lookup_incrementDenied_self (perms : List (String × SitePermission)) (h : String) :
    (incrementDenied perms h).lookup h =
      (perms.lookup h).map (fun s => { s with denied_count := s.denied_count + 1 }) := by
  induction perms with
  | nil => rfl
  | cons q rest ih =>
    obtain ⟨a, b⟩ := q
    by_cases hah : a = h
    · subst hah
      have step : incrementDenied ((a, b) :: rest) a =
          (a, { b with denied_count := b.denied_count + 1 }) :: incrementDenied rest a := by
        simp [incrementDenied]
      rw [step]
      simp [List.lookup]
    · have step : incrementDenied ((a, b) :: rest) h = (a, b) :: incrementDenied rest h := by
        simp [incrementDenied, hah]
      rw [step]
      have hba : (h == a) = false := beq_eq_false_iff_ne.mpr (fun he => hah he.symm)
      simp [List.lookup, hba, ih]

lemma lookup_updateAssoc {α : Type} (m : List (String × α)) (h k : String) (v : α) :
    (updateAssoc m h v).lookup k = if k = h then some v else m.lookup k := by
  induction m with
  | nil =>
    by_cases hk : k = h
    · subst hk
      simp [updateAssoc, List.lookup]
    · have hbk : (k == h) = false := beq_eq_false_iff_ne.mpr hk
      simp [updateAssoc, List.lookup, hbk, hk]
  | cons q rest ih =>
    obtain ⟨a, b⟩ := q
    by_cases hah : a = h
    · subst hah
      have step : updateAssoc ((a, b) :: rest) a v = (a, v) :: rest := by
        simp [updateAssoc]
      rw [step]
      by_cases hk : k = a
      · subst hk
        simp [List.lookup]
      · have hbk : (k == a) = false := beq_eq_false_iff_ne.mpr hk
        simp [List.lookup, hbk, hk]
    · have step : updateAssoc ((a, b) :: rest) h v = (a, b) :: updateAssoc rest h v := by
        simp [updateAssoc, hah]
      rw [step]
      by_cases hka : k = a
      · subst hka
        simp [List.lookup, ih, hah]
      · have hbk : (k == a) = false := beq_eq_false_iff_ne.mpr hka
        simp [List.lookup, hbk, ih]

lemma deniedCount_lookup_purge (perms : List (String × SitePermission)) (now : Nat)
    (k : String) :
    ((purgeExpiredGrants perms now).lookup k).map (fun s => s.denied_count) =
      ((perms.lookup k).map (fun s => s.denied_count)) := by
  induction perms with
  | nil => rfl
  | cons q rest ih =>
    obtain ⟨a, b⟩ := q
    by_cases hk : k = a
    · subst hk
      simp [purgeExpiredGrants, List.lookup]
    · have hbk : (k == a) = false := beq_eq_false_iff_ne.mpr hk
      simpa [purgeExpiredGrants, List.lookup, hbk] using ih

lemma deniedCount_lookup_clearSession (perms : List (String × SitePermission))
    (k : String) :
    ((clearSessionGrants perms).lookup k).map (fun s => s.denied_count) =
      ((perms.lookup k).map (fun s => s.denied_count)) := by
  induction perms with
  | nil => rfl
  | cons q rest ih =>
    obtain ⟨a, b⟩ := q
    by_cases hk : k = a
    · subst hk
      simp [clearSessionGrants, List.lookup]
    · have hbk : (k == a) = false := beq_eq_false_iff_ne.mpr hk
      simpa [clearSessionGrants, List.lookup, hbk] using ih

/-- Claim C6: a single explicit user rejection of one request from host H
increments H's denied_count by exactly one — the two racing
incrementDenied cycles read the same snapshot and the later whole-map
write overwrites the earlier, a lost update with net effect one — and
denied_count increments only on such a rejection: the approval path
(addGrant for each remembered capability) and every other grant-store
mutation leave every denied_count unchanged. -/
theorem c6_denied_count_increments_once
    (perms : List (String × SitePermission)) (host : String) (site : SitePermission)
    (hl : perms.lookup host = some site)
    (h2 : String) (c : Capability) (dur : PermissionDuration)
    (kinds : Option (List Nat)) (now : Nat) :
    (userRejectionDeniedEffects perms host).lookup host =
      some { site with denied_count := site.denied_count + 1 } ∧
    ((addGrant perms h2 c dur kinds now).lookup host).map (fun s => s.denied_count) =
      some site.denied_count ∧
    ((consumeOnceGrant perms h2 c).lookup host).map (fun s => s.denied_count) =
      some site.denied_count ∧
    ((revokeGrant perms h2 c).lookup host).map (fun s => s.denied_count) =
      some site.denied_count ∧
    ((revokeAllGrants perms h2).lookup host).map (fun s => s.denied_count) =
      some site.denied_count ∧
    ((purgeExpiredGrants perms now).lookup host).map (fun s => s.denied_count) =
      some site.denied_count ∧
    ((clearSessionGrants perms).lookup host).map (fun s => s.denied_count) =
      some site.denied_count := by
  have hsame : ∀ s2 : SitePermission, perms.lookup h2 = some s2 → host = h2 → s2 = site := by
    intro s2 hl2 hh
    rw [← hh] at hl2
    rw [hl] at hl2
    exact (Option.some.injEq _ _ ▸ hl2).symm
  refine ⟨?_, ?_, ?_, ?_, ?_, ?_, ?_⟩
  · show (incrementDenied perms host).lookup host = _
    rw [lookup_incrementDenied_self, hl]
    rfl
  · unfold addGrant
    cases hl2 : perms.lookup h2 with
    | none =>
      rw [lookup_updateAssoc]
      have hne : host ≠ h2 := by
        intro hh
        rw [← hh] at hl2
        rw [hl] at hl2
        cases hl2
      rw [if_neg hne, hl]
      rfl
    | some s2 =>
      rw [lookup_updateAssoc]
      by_cases hh : host = h2
      · rw [if_pos hh, hsame s2 hl2 hh]
        rfl
      · rw [if_neg hh, hl]
        rfl
  · unfold consumeOnceGrant
    cases hl2 : perms.lookup h2 with
    | none =>
      rw [hl]
      rfl
    | some s2 =>
      rw [lookup_updateAssoc]
      by_cases hh : host = h2
      · rw [if_pos hh, hsame s2 hl2 hh]
        rfl
      · rw [if_neg hh, hl]
        rfl
  · unfold revokeGrant
    cases hl2 : perms.lookup h2 with
    | none =>
      rw [hl]
      rfl
    | some s2 =>
      rw [lookup_updateAssoc]
      by_cases hh : host = h2
      · rw [if_pos hh, hsame s2 hl2 hh]
        rfl
      · rw [if_neg hh, hl]
        rfl
  · unfold revokeAllGrants
    cases hl2 : perms.lookup h2 with
    | none =>
      rw [hl]
      rfl
    | some s2 =>
      rw [lookup_updateAssoc]
      by_cases hh : host = h2
      · rw [if_pos hh, hsame s2 hl2 hh]
        rfl
      · rw [if_neg hh, hl]
        rfl
  · rw [deniedCount_lookup_purge, hl]
    rfl
  · rw [deniedCount_lookup_clearSession, hl]
    rfl

/-- Claim C6 witness: one rejection against a concrete store takes
denied_count from 0 to 1. -/
theorem c6_denied_count_increments_once_witness :
    (userRejectionDeniedEffects
        [("app.example",
          { host := "app.example", first_seen := 500, last_active := 900,
            request_count := 3, denied_count := 0, grants := [] })]
        "app.example").lookup "app.example" =
      some { host := "app.example", first_seen := 500, last_active := 900,
             request_count := 3, denied_count := 1, grants := [] } :=
  (c6_denied_count_increments_once
    [("app.example",
      { host := "app.example", first_seen := 500, last_active := 900,
        request_count := 3, denied_count := 0, grants := [] })]
    "app.example"
    { host := "app.example", first_seen := 500, last_active := 900,
      request_count := 3, denied_count := 0, grants := [] }
    (by decide) "other.example" .signEvent .forever none 7).1

--#endregion
